import Mathlib

/-!
Verification development for the Product-Presenter document assembly
pipeline (`src/js/pdf-generator.js` and the `PDFCore` helper module).

The JavaScript source is shallowly embedded: JS numbers appearing as
integer pixel counts become `Nat`, signed 32-bit intermediate values in the
URL hash become `Int` with explicit wrapping, decimal arithmetic on prices
becomes `Rat`, and the asynchronous callback pipeline becomes explicit
state passing.  Fallible operations (network fetch, PDF parse) are
modelled by `Option`-valued environment functions supplied as inputs.
-/

set_option maxRecDepth 8192

namespace ProductPresenter

/-! ## JavaScript primitives

Small models of the JS built-ins the generator relies on:
`parseFloat`, `Number.prototype.toFixed(2)`, `Math.round`, `ToInt32`
coercion (used by `<<` and `&`), and `Number.prototype.toString(36)`.
-/

/-- Digit run to its decimal value (`'0'` has code 48). -/
def digitsToNat (ds : List Char) : ℕ :=
  ds.foldl (fun acc c => 10 * acc + (c.toNat - 48)) 0

/-- JS `parseFloat`: skip leading whitespace, optional sign, integer part,
optional fraction, optional exponent; any trailing garbage is ignored.
`none` models `NaN` (no digit could be read).  `Infinity` literals are not
modelled (no call site produces them). -/
def jsParseFloat (s : String) : Option ℚ :=
  let cs := s.data.dropWhile (·.isWhitespace)
  let signRest : Bool × List Char :=
    match cs with
    | '-' :: r => (true, r)
    | '+' :: r => (false, r)
    | _ => (false, cs)
  let neg := signRest.1
  let cs1 := signRest.2
  let ip := cs1.takeWhile (·.isDigit)
  let cs2 := cs1.dropWhile (·.isDigit)
  let fracRest : List Char × List Char :=
    match cs2 with
    | '.' :: r => (r.takeWhile (·.isDigit), r.dropWhile (·.isDigit))
    | _ => ([], cs2)
  let fp := fracRest.1
  let cs3 := fracRest.2
  if ip.isEmpty && fp.isEmpty then none
  else
    let mant : ℚ := (digitsToNat ip : ℚ) + (digitsToNat fp : ℚ) / ((10 : ℚ) ^ fp.length)
    let e : ℤ :=
      match cs3 with
      | 'e' :: r | 'E' :: r =>
        let esignRest : Bool × List Char :=
          match r with
          | '-' :: r2 => (true, r2)
          | '+' :: r2 => (false, r2)
          | _ => (false, r)
        let ed := esignRest.2.takeWhile (·.isDigit)
        if ed.isEmpty then 0
        else if esignRest.1 then -(digitsToNat ed : ℤ) else (digitsToNat ed : ℤ)
      | _ => 0
    let base : ℚ := mant * (10 : ℚ) ^ e
    some (if neg then -base else base)

/-- JS `Math.round`: round half toward positive infinity. -/
def jsRound (q : ℚ) : ℤ := ⌊q + 1 / 2⌋

/-- JS `x.toFixed(2)` for the non-negative amounts the generator prints. -/
def toFixed2 (q : ℚ) : String :=
  let n : ℕ := (jsRound (q * 100)).toNat
  toString (n / 100) ++ "." ++ (if n % 100 < 10 then "0" ++ toString (n % 100) else toString (n % 100))

/-- JS `ToInt32` (the coercion applied by `<<` and `&`): wrap into
`[-2^31, 2^31)`. -/
def toInt32 (z : ℤ) : ℤ := (z + 2 ^ 31) % 2 ^ 32 - 2 ^ 31

/-- One digit of JS `Number.prototype.toString(36)` (`0-9` then `a-z`,
where `'a'` has code 97). -/
def base36Digit (d : ℕ) : Char :=
  if d < 10 then Char.ofNat (48 + d) else Char.ofNat (87 + d)

/-- Fuelled base-36 digit expansion (most significant first).  The fuel is
only a termination bound; `natToBase36` supplies enough of it. -/
def natToBase36Aux : ℕ → ℕ → List Char
  | 0, _ => []
  | f + 1, n =>
    if n < 36 then [base36Digit n]
    else natToBase36Aux f (n / 36) ++ [base36Digit (n % 36)]

/-- JS `n.toString(36)` for a natural number. -/
def natToBase36 (n : ℕ) : String := ⟨natToBase36Aux (n + 1) n⟩

/-! ## Image transcoder: dimension fitting (`calculateOptimizedDimensions`) -/

/-- `calculateOptimizedDimensions(originalWidth, originalHeight, maxWidth)`
(`pdf-generator.js:1622`): images at or under `maxWidth` are returned
unscaled; wider images are scaled to `maxWidth` with the height following
the aspect ratio, rounded. -/
def calculateOptimizedDimensions (originalWidth originalHeight maxWidth : ℕ) : ℤ × ℤ :=
  if originalWidth ≤ maxWidth then (originalWidth, originalHeight)
  else (maxWidth, jsRound ((maxWidth : ℚ) * (originalHeight : ℚ) / (originalWidth : ℚ)))

/-! ## Image transcoder: technical-image classification

Both classifiers read a bounded pixel sample of the decoded image.  The
canvas resampling that produces the sample is environment work, so a
decoded image is modelled as its source dimensions together with the
sampled RGB data (and the alpha bytes scanned by `detectTransparency`).
-/

/-- One sampled pixel, as the `r,g,b` byte triple the classifiers key on. -/
abbrev RGB := ℕ × ℕ × ℕ

/-- A decoded image: source dimensions, the sampled RGB pixels handed to
the classifier, and the alpha bytes of the resized canvas. -/
structure ImgSample where
  width : ℕ
  height : ℕ
  data : List RGB
  alphas : List ℕ
deriving Repr, DecidableEq

/-- Size of the JS `Set` of `"r,g,b"` strings: the number of distinct
sampled colors. -/
def distinctColors (data : List RGB) : ℕ := data.dedup.length

/-- Per-channel absolute difference summed over `r,g,b`
(`Math.abs(r - prevR) + ...`). -/
def contrast (p q : RGB) : ℕ :=
  (p.1 - q.1 : ℤ).natAbs + (p.2.1 - q.2.1 : ℤ).natAbs + (p.2.2 - q.2.2 : ℤ).natAbs

/-- Neighbor-contrast edge count of `PDFCore.detectTechnicalImage`
(part_000:190-205): each pixel except the first *and the last* (the loop
guard is `i > 0 && i < data.length - 4`) is compared with its predecessor,
and contrasts above 50 count as edges. -/
def countEdges (data : List RGB) : ℕ :=
  (((data.zip data.tail).dropLast).filter (fun pq => 50 < contrast pq.1 pq.2)).length

/-- The bounded sample edge of `PDFCore.detectTechnicalImage`:
`sampleSize = Math.min(50, Math.min(img.width, img.height))`. -/
def sampleSize (img : ImgSample) : ℕ := min 50 (min img.width img.height)

/-- `PDFCore.detectTechnicalImage(img)` (part_000:168-213): technical iff
fewer than 500 distinct sampled colors, or more than 10% of the sampled
pixels are edges, or the source is smaller than 800×800. -/
def detectTechnicalImage (img : ImgSample) : Bool :=
  let colors := distinctColors img.data
  let edgeCount := countEdges img.data
  let hasLimitedColors := decide (colors < 500)
  let hasSharpEdges := decide (10 * edgeCount > sampleSize img * sampleSize img)
  let isSmallImage := decide (img.width < 800) && decide (img.height < 800)
  hasLimitedColors || hasSharpEdges || isSmallImage

/-- `isTechnicalDiagram(img)` (pdf-generator.js:1588-1607), the classifier
the export path's `drawImage` actually calls: technical iff the sample has
fewer than 1000 distinct colors.  It computes no edge metric and ignores
the source dimensions. -/
def isTechnicalDiagram (img : ImgSample) : Bool :=
  decide (distinctColors img.data < 1000)

/-- `detectTransparency(canvas, ctx)` (pdf-generator.js:1610-1620): any
alpha byte below 255. -/
def detectTransparency (alphas : List ℕ) : Bool := alphas.any (· < 255)

/-- The classification the spec sentence ascribes to "the technical
classification" (claim C2): fewer than 1000 distinct sampled colors, or
edge count above 10% of the sampled pixels, or source below 800×800.
Stated from the spec's words, for comparison with the two source
classifiers. -/
def specClaimedTechnical (img : ImgSample) : Bool :=
  decide (distinctColors img.data < 1000)
    || decide (10 * countEdges img.data > img.data.length)
    || (decide (img.width < 800) && decide (img.height < 800))

/-! ## Image deduplication (`generateImageHash` and the jsPDF alias table) -/

/-- One step of the URL hash loop (pdf-generator.js:2076-2080):
`hash = ((hash << 5) - hash) + char; hash = hash & hash`.  `<<` wraps its
result to a signed 32-bit value and `& hash` re-applies `ToInt32`. -/
def hashStep (h : ℤ) (c : ℕ) : ℤ := toInt32 (toInt32 (h * 32) - h + c)

/-- `generateImageHash(imageUrl)` (pdf-generator.js:2071-2083): the 32-bit
rolling hash of the URL's character codes, printed as `Math.abs(hash)` in
base 36 (an empty URL short-circuits to `"0"`). -/
def generateImageHash (imageUrl : String) : String :=
  if imageUrl.length = 0 then "0"
  else natToBase36 (imageUrl.data.foldl (fun h c => hashStep h c.toNat) 0).natAbs

/-- The deduplication alias `drawImage` passes to `doc.addImage`
(pdf-generator.js:497-498): `` `img_${generateImageHash(imgUrl)}` ``. -/
def imageAlias (imgUrl : String) : String := "img_" ++ generateImageHash imgUrl

/-- Modelled from the spec: the export-scoped image resource table.  The
repository delegates storage to jsPDF's `addImage` alias mechanism (not
part of `src/`); per the spec's dedup contract, an asset whose `cacheKey`
is already present is returned unchanged rather than re-encoded, otherwise
the encoded bytes are appended under that key. -/
def addImageAlias (table : List (String × ℕ)) (key : String) (encodedBytes : ℕ) :
    List (String × ℕ) :=
  if table.any (fun p => p.1 == key) then table else table ++ [(key, encodedBytes)]

/-- How many entries of the resource table carry a given key. -/
def countAlias (table : List (String × ℕ)) (key : String) : ℕ :=
  (table.filter (fun p => p.1 == key)).length

/-! ## Image acquisition: relay fallback (`drawImage`) -/

/-- Outcome of one relay attempt: the decoded image on `img.onload`, or
the `img.onerror` / 3-second-timeout paths. -/
inductive RelayOutcome where
  | loaded (img : ImgSample)
  | failed
  | timedOut
deriving Repr, DecidableEq

/-- The ordered relay list (pdf-generator.js:421-424). -/
def proxies : List String :=
  ["https://api.codetabs.com/v1/proxy?quest=", "https://corsproxy.io/?"]

/-- Environment of one export: what each relay returns for each image URL
(the attempted URL is `proxy + encodeURIComponent(imgUrl)`, abstracted
here as the pair), and the `emailCompatible` flag `drawImage` consults. -/
structure ImgEnv where
  outcome : String → String → RelayOutcome
  emailCompatible : Bool

/-- `tryLoadOptimizedImage` (pdf-generator.js:428-579): attempt the relays
in order; on `onerror` or timeout advance to the next relay; give up after
the last one. -/
def tryLoadOptimizedImage (env : ImgEnv) (imgUrl : String) : List String → Option ImgSample
  | [] => none
  | p :: rest =>
    match env.outcome p imgUrl with
    | RelayOutcome.loaded img => some img
    | RelayOutcome.failed => tryLoadOptimizedImage env imgUrl rest
    | RelayOutcome.timedOut => tryLoadOptimizedImage env imgUrl rest

/-- What one `drawImage` call leaves in the document: nothing (the row
proceeds with an empty image region), or an embedded image with its
dedup alias and chosen format. -/
inductive ImagePlacement where
  | skipped
  | placed (dedupKey : String) (format : String)
deriving Repr, DecidableEq

/-- `drawImage(doc, imgUrl, x, y, maxW, maxH, cb)` (pdf-generator.js:
389-580), as the placement it produces.  An empty URL and the
email-compatible mode skip immediately; otherwise the relay chain runs
and, on success, the format is PNG when the image has transparency or is
classified technical, else JPEG (lines 476-493).  Every path invokes the
continuation exactly once, which the callers' sequencing below relies on. -/
def drawImage (env : ImgEnv) (imgUrl : String) : ImagePlacement :=
  if imgUrl = "" then ImagePlacement.skipped
  else if env.emailCompatible then ImagePlacement.skipped
  else
    match tryLoadOptimizedImage env imgUrl proxies with
    | none => ImagePlacement.skipped
    | some img =>
      let fmt := if detectTransparency img.alphas || isTechnicalDiagram img then "PNG" else "JPEG"
      ImagePlacement.placed (imageAlias imgUrl) fmt

/-! ## Row data and the text cells (`drawNextRow`, `drawPDFHeader`) -/

/-- One selection item as `drawNextRow` reads it (absent fields are the
falsy `""` / `0`). -/
structure Item where
  OrderCode : String := ""
  Description : String := ""
  LongDescription : String := ""
  Notes : String := ""
  Room : String := ""
  Quantity : ℕ := 0
  RRP_INCGST : String := ""
  Image_URL : String := ""
  Diagram_URL : String := ""
  Datasheet_URL : String := ""
  Website_URL : String := ""
deriving Repr, DecidableEq

/-- The export options `drawNextRow` and `drawPDFHeader` consult. -/
structure ExportFlags where
  excludePrice : Bool := false
  excludeQty : Bool := false
deriving Repr, DecidableEq

/-- The robust price parse of `drawNextRow` (pdf-generator.js:888-891):
`NaN` unless `RRP_INCGST` is truthy, else
`parseFloat(String(value).replace(/,/g, ''))` — commas (thousands
separators) stripped, then parsed as a decimal. -/
def pdfPriceNum (it : Item) : Option ℚ :=
  if it.RRP_INCGST = "" then none
  else jsParseFloat ⟨it.RRP_INCGST.data.filter (· ≠ ',')⟩

/-- `pdfPriceStr` (pdf-generator.js:892): `` `$${num.toFixed(2)}` `` when
the parse produced a strictly positive number, the empty string otherwise
(never `$0.00` and never `NaN`). -/
def pdfPriceStr (it : Item) : String :=
  match pdfPriceNum it with
  | some q => if 0 < q then "$" ++ toFixed2 q else ""
  | none => ""

/-- `row.item.Quantity || 1` (pdf-generator.js:902,907). -/
def quantityOrOne (it : Item) : ℕ := if it.Quantity = 0 then 1 else it.Quantity

/-- `pdfTotalStr` (pdf-generator.js:907): unit price times quantity,
rendered like the price cell, empty under the same conditions. -/
def pdfTotalStr (it : Item) : String :=
  match pdfPriceNum it with
  | some q => if 0 < q then "$" ++ toFixed2 (q * (quantityOrOne it : ℚ)) else ""
  | none => ""

/-- A row of `rowsToDraw` (pdf-generator.js:596-603): the item, its room,
whether it is the room group's first row, and the group size shown in the
room header. -/
structure RowTD where
  item : Item
  room : String
  isFirstInRoom : Bool
  roomCount : ℕ
deriving Repr, DecidableEq

/-- What `drawNextRow` draws for one row slot (pdf-generator.js:804-916):
the optional room header, the two image placements, and the text cells.
`none` cells are omitted entirely by the exclude flags (lines 893-911). -/
structure RenderedRow where
  roomHeader : Option String
  image : ImagePlacement
  diagram : ImagePlacement
  codeCell : String
  descCell : String
  priceCell : Option String
  qtyCell : Option String
  totalCell : Option String
deriving Repr, DecidableEq

/-- The per-row rendering step of `drawNextRow`: wait for the product
image (or skip), then the diagram (or skip), then draw the text columns. -/
def renderRow (env : ImgEnv) (fl : ExportFlags) (r : RowTD) : RenderedRow where
  roomHeader :=
    if r.isFirstInRoom then some (r.room ++ " (" ++ toString r.roomCount ++ ")") else none
  image := drawImage env r.item.Image_URL
  diagram := drawImage env r.item.Diagram_URL
  codeCell := r.item.OrderCode
  descCell := r.item.Description
  priceCell := if !fl.excludePrice && !fl.excludeQty then some (pdfPriceStr r.item) else none
  qtyCell := if !fl.excludeQty then some (toString (quantityOrOne r.item)) else none
  totalCell := if !fl.excludePrice && !fl.excludeQty then some (pdfTotalStr r.item) else none

/-- The column titles `drawPDFHeader` prints (pdf-generator.js:948-957):
`Code` and `Description` always; `Price ea inc GST`, `Qty`, `Total` only
when neither flag is set; `Qty` alone when only the price is excluded. -/
def headerTitles (fl : ExportFlags) : List String :=
  ["Code", "Description"] ++
    (if !fl.excludePrice && !fl.excludeQty then ["Price ea inc GST", "Qty", "Total"]
     else if fl.excludePrice && !fl.excludeQty then ["Qty"]
     else [])

/-! ## Pagination driver: room grouping and row order

`showPdfFormScreen` builds `byRoom` by pushing each item under its room
key of a plain JS object (pdf-generator.js:205-210) and later walks
`Object.keys(byRoom)` (lines 582-605).  JS objects enumerate string keys
that are array indices (canonical decimal representations of integers
below `2^32 - 1`) first, in ascending numeric order, and only then the
remaining keys in insertion order — so the key order is modelled, not
assumed to be insertion order.
-/

/-- The numeric value of a string that is a JS array-index key (canonical
decimal form, below `2^32 - 1`), else `none`. -/
def arrayIndexVal (s : String) : Option ℕ :=
  if s.data ≠ [] && s.data.all (·.isDigit) then
    let v := digitsToNat s.data
    if Nat.repr v = s ∧ v < 2 ^ 32 - 1 then some v else none
  else none

/-- Insert into an ascending list (used to sort array-index keys). -/
def insertAsc (n : ℕ) : List ℕ → List ℕ
  | [] => [n]
  | m :: ms => if n ≤ m then n :: m :: ms else m :: insertAsc n ms

/-- Ascending insertion sort. -/
def sortAsc (l : List ℕ) : List ℕ := l.foldr insertAsc []

/-- JS `Object.keys` order for the given key-insertion order: array-index
keys ascending (their canonical spelling is `Nat.repr` of their value),
then the remaining keys in insertion order. -/
def objectKeys (insertionOrder : List String) : List String :=
  (sortAsc (insertionOrder.filterMap arrayIndexVal)).map Nat.repr ++
    insertionOrder.filter (fun s => (arrayIndexVal s).isNone)

/-- One step of the `byRoom` construction (pdf-generator.js:207-210):
`if (!byRoom[item.Room]) byRoom[item.Room] = []; byRoom[item.Room].push(item)`. -/
def pushRoom (acc : List (String × List Item)) (it : Item) : List (String × List Item) :=
  if acc.any (fun p => p.1 == it.Room) then
    acc.map (fun p => if p.1 == it.Room then (p.1, p.2 ++ [it]) else p)
  else acc ++ [(it.Room, [it])]

/-- `byRoom` as an association list in key-insertion order. -/
def byRoom (selection : List Item) : List (String × List Item) :=
  selection.foldl pushRoom []

/-- The item list stored under a room key (`[]` when absent). -/
def roomEntry (acc : List (String × List Item)) (room : String) : List Item :=
  ((acc.find? (fun p => p.1 == room)).map Prod.snd).getD []

/-- `Object.keys(byRoom)` (pdf-generator.js:583). -/
def roomNames (selection : List Item) : List String :=
  objectKeys ((byRoom selection).map Prod.fst)

/-- Tag a room group's items the way `rowsToDraw.push` does
(pdf-generator.js:590-604): `isFirstInRoom` marks index 0 and `roomCount`
is the group size. -/
def tagRoom (room : String) (items : List Item) : List RowTD :=
  items.enum.map (fun p => ⟨p.2, room, decide (p.1 = 0), items.length⟩)

/-- `rowsToDraw` (pdf-generator.js:582-605): the room groups, flattened in
`Object.keys` order. -/
def rowsToDraw (selection : List Item) : List RowTD :=
  (roomNames selection).flatMap (fun room => tagRoom room (roomEntry (byRoom selection) room))

/-- Rooms in first-appearance order (what the spec sentence asserts the
group order to be). -/
def firstAppearanceRooms (selection : List Item) : List String :=
  selection.foldl (fun ks it => if it.Room ∈ ks then ks else ks ++ [it.Room]) []

/-- The row order claim C6 asserts: room groups in first-appearance
order, rows within a room in input insertion order.  Stated from the
spec's words, for comparison with `rowsToDraw`. -/
def specClaimedRowOrder (selection : List Item) : List RowTD :=
  (firstAppearanceRooms selection).flatMap
    (fun room => tagRoom room (selection.filter (fun it => it.Room == room)))

/-! ## Layout engine: page transitions (`drawNextRow`) -/

/-- One content page of the draft: whether the in-loop
`drawPDFHeader` call ran at its top before any row was placed
(pdf-generator.js:789-790), and its row slots in order. -/
structure ContentPage where
  headerRedrawn : Bool
  rows : List RowTD
deriving Repr, DecidableEq

/-- The pagination state of `drawNextRow`: finished pages, the page being
filled, and the `pageRow` slot counter. -/
structure PageState where
  donePages : List ContentPage
  current : ContentPage
  pageRow : ℕ
deriving Repr, DecidableEq

/-- `maxRowsPerPage` (pdf-generator.js:627). -/
def maxRowsPerPage : ℕ := 4

/-- One `drawNextRow` iteration's page bookkeeping (pdf-generator.js:
787-793 and 912-913): when the slot counter has reached `maxRowsPerPage`,
`doc.addPage()` opens a fresh page and `drawPDFHeader` redraws the header
band before the row is placed; then the row takes the next slot. -/
def drawRowStep (st : PageState) (r : RowTD) : PageState :=
  if st.pageRow ≥ maxRowsPerPage then
    { donePages := st.donePages ++ [st.current]
      current := { headerRedrawn := true, rows := [r] }
      pageRow := 1 }
  else
    { donePages := st.donePages
      current := { st.current with rows := st.current.rows ++ [r] }
      pageRow := st.pageRow + 1 }

/-- The initial state: the first content page was opened by the
`doc.addPage()` after the cover (pdf-generator.js:357); its header band is
painted by the page-numbering pass, not by the in-loop redraw. -/
def initialPageState : PageState :=
  { donePages := [], current := { headerRedrawn := false, rows := [] }, pageRow := 0 }

/-- The content pages produced by driving `drawNextRow` over the whole
row sequence. -/
def paginate (rows : List RowTD) : List ContentPage :=
  let st := rows.foldl drawRowStep initialPageState
  st.donePages ++ [st.current]

/-! ## Document merger (`mergeWithTipTail`)

A PDF is its page list (pages are abstract ids).  The network fetch, the
base64 upload decode and `PDFLib.PDFDocument.load` are environment
functions; `none` models the failure paths the source catches
(`fetchPdfBuffer` / `loadPdfDocument`, pdf-generator.js:2743-2783).
-/

/-- An abstract PDF: its page sequence. -/
abbrev Pdf := List ℕ

/-- The tip/tail settings read from `tipTailSettings`
(pdf-generator.js:2733-2734). -/
structure TipTailSettings where
  tipAsset : Option String := none
  tipUpload : Option String := none
  tailAsset : Option String := none
  tailUpload : Option String := none
deriving Repr, DecidableEq

/-- `!tipAsset && !tipUpload && !tailAsset && !tailUpload`
(pdf-generator.js:2737). -/
def noTipTailConfigured (s : TipTailSettings) : Bool :=
  s.tipAsset.isNone && s.tipUpload.isNone && s.tailAsset.isNone && s.tailUpload.isNone

/-- The merge environment: asset-path fetch (`fetch` + `arrayBuffer`),
PDF parse of fetched bytes, base64-upload decode-and-parse, and whether
`PDFLib.PDFDocument.load(mainBytes)` succeeds on the primary. -/
structure MergeEnv where
  fetchAsset : String → Option ℕ
  loadPdf : ℕ → Option Pdf
  loadUpload : String → Option Pdf
  mainLoadOk : Bool

/-- A slot warning of `showTipTailWarning`, or the catch-all merge
error notice (pdf-generator.js:2823-2827, 2862-2866, 2876-2881). -/
inductive MergeWarning where
  | tipIssue
  | tailIssue
  | mergeError
deriving Repr, DecidableEq

/-- Resolution of one tip or tail slot (pdf-generator.js:2798-2816 and
2837-2855): an upload takes precedence and is decoded and parsed; else a
configured asset path is fetched and parsed; a failure at any stage
leaves the slot document `null` with a warning flagged; an unconfigured
slot is silently `null`. -/
def resolveSlot (env : MergeEnv) (upload asset : Option String) : Option Pdf × Bool :=
  match upload with
  | some u =>
    match env.loadUpload u with
    | some d => (some d, false)
    | none => (none, true)
  | none =>
    match asset with
    | some a =>
      match env.fetchAsset a with
      | some buf =>
        match env.loadPdf buf with
        | some d => (some d, false)
        | none => (none, true)
      | none => (none, true)
    | none => (none, false)

/-- `mergeWithTipTail(mainPdfBlob)` (pdf-generator.js:2732-2882), as the
final page sequence plus the warnings shown.  With nothing configured the
main blob is returned as-is.  Otherwise, inside the `try`: the primary is
reopened (its failure, or an empty primary making `copyPages(mainDoc,[0])`
throw, lands in the `catch` which returns the primary unmodified); then
the merged document is cover page, tip pages, remaining primary pages
(`getPageCount() > 1` guard), and tail pages, with a per-slot warning
wherever resolution failed. -/
def mergeWithTipTail (env : MergeEnv) (s : TipTailSettings) (primary : Pdf) :
    Pdf × List MergeWarning :=
  if noTipTailConfigured s then (primary, [])
  else if !env.mainLoadOk then (primary, [MergeWarning.mergeError])
  else
    match primary with
    | [] => (primary, [MergeWarning.mergeError])
    | p0 :: rest =>
      let tip := resolveSlot env s.tipUpload s.tipAsset
      let tail := resolveSlot env s.tailUpload s.tailAsset
      (p0 :: (tip.1.getD [] ++ rest ++ tail.1.getD []),
        (if tip.2 then [MergeWarning.tipIssue] else []) ++
          (if tail.2 then [MergeWarning.tailIssue] else []))

/-! ## Concrete inputs referenced by the theorems -/

/-- The §8 scenario's Kitchen row K1 (price `10.00`, quantity 2). -/
def itemK1 : Item := { OrderCode := "K1", Room := "Kitchen", Quantity := 2, RRP_INCGST := "10.00" }

/-- The §8 scenario's Kitchen row K2 (empty, unparseable price). -/
def itemK2 : Item := { OrderCode := "K2", Room := "Kitchen", Quantity := 1, RRP_INCGST := "" }

/-- The §8 scenario's Bath row B1 (price `5.00`, quantity 3). -/
def itemB1 : Item := { OrderCode := "B1", Room := "Bath", Quantity := 3, RRP_INCGST := "5.00" }

/-- The §8 scenario selection. -/
def scenarioSelection : List Item := [itemK1, itemK2, itemB1]

/-- An environment in which every relay attempt fails to load. -/
def envAllFail : ImgEnv where
  outcome := fun _ _ => RelayOutcome.failed
  emailCompatible := false

/-- Claim C3's counterexample input: a 400×800 source scaled under
`maxWidth = 300`. -/
theorem calculateOptimizedDimensions_tall_counterexample :
    calculateOptimizedDimensions 400 800 300 = (300, 600) ∧
      ¬(max (calculateOptimizedDimensions 400 800 300).1
          (calculateOptimizedDimensions 400 800 300).2 ≤ 300) := by
  have h : calculateOptimizedDimensions 400 800 300 = (300, 600) := by
    unfold calculateOptimizedDimensions
    norm_num [jsRound]
  exact ⟨h, by rw [h]; norm_num⟩

/-- Claim C3 as amended: the computed target dimensions preserve the
aspect ratio up to rounding (the height is within half a unit of the
width-scaled exact value) and the target *width* never exceeds
`maxWidth`; the height is unbounded beyond the ratio. -/
theorem calculateOptimizedDimensions_spec (w h maxW : ℕ) (hw : 0 < w) :
    (calculateOptimizedDimensions w h maxW).1 ≤ (maxW : ℤ) ∧
      |((calculateOptimizedDimensions w h maxW).2 : ℚ) -
        ((calculateOptimizedDimensions w h maxW).1 : ℚ) * (h : ℚ) / (w : ℚ)| ≤ 1 / 2 := by
  have hw' : ((w : ℚ)) ≠ 0 := by positivity
  unfold calculateOptimizedDimensions
  split
  · rename_i hle
    dsimp only
    refine ⟨by exact_mod_cast hle, ?_⟩
    have : ((w : ℚ)) * (h : ℚ) / (w : ℚ) = (h : ℚ) := by field_simp
    simp [this]
  · dsimp only
    refine ⟨le_refl _, ?_⟩
    set q : ℚ := (maxW : ℚ) * (h : ℚ) / (w : ℚ) with hq
    have h1 : ((⌊q + 1 / 2⌋ : ℤ) : ℚ) ≤ q + 1 / 2 := Int.floor_le _
    have h2 : q + 1 / 2 < ((⌊q + 1 / 2⌋ : ℤ) : ℚ) + 1 := Int.lt_floor_add_one _
    rw [abs_le]
    constructor <;> simp only [jsRound] <;> push_cast <;> linarith

/-- Witness for `calculateOptimizedDimensions_spec` at the concrete input
400×800 with `maxWidth = 300`. -/
theorem calculateOptimizedDimensions_spec_witness :
    0 < 400 ∧
      ((calculateOptimizedDimensions 400 800 300).1 ≤ (300 : ℤ) ∧
        |((calculateOptimizedDimensions 400 800 300).2 : ℚ) -
          ((calculateOptimizedDimensions 400 800 300).1 : ℚ) * (800 : ℚ) / (400 : ℚ)| ≤ 1 / 2) :=
  ⟨by norm_num, calculateOptimizedDimensions_spec 400 800 300 (by norm_num)⟩

/-- A scenario row wrapper for single-row rendering statements. -/
def rowOf (it : Item) : RowTD := { item := it, room := it.Room, isFirstInRoom := true, roomCount := 1 }

/-- Claim C5's counterexample: with the exclude-quantity flag set but the
exclude-price flag clear, the price cell is omitted anyway (the code
gates it on `!excludePrice && !excludeQty`), so "price cell omitted
exactly when exclude-price is set" fails. -/
theorem excludeFlags_price_cell_counterexample :
    (renderRow envAllFail { excludePrice := false, excludeQty := true } (rowOf itemK1)).priceCell
        = none ∧
      (ExportFlags.excludePrice { excludePrice := false, excludeQty := true }) = false := by
  exact ⟨rfl, rfl⟩

/-- Claim C5 as amended: the price cell and the line-total cell are
omitted exactly when either exclude flag is set, the quantity cell
exactly when the exclude-quantity flag is set, and the content-page
header titles are omitted under the same conditions (`Price ea inc GST`
and `Total` gone whenever either flag is set, `Qty` gone exactly when
quantity is excluded). -/
theorem excludeFlags_cells_and_headers (env : ImgEnv) (fl : ExportFlags) (r : RowTD) :
    ((renderRow env fl r).priceCell = none ↔ (fl.excludePrice = true ∨ fl.excludeQty = true)) ∧
      ((renderRow env fl r).totalCell = none ↔ (fl.excludePrice = true ∨ fl.excludeQty = true)) ∧
      ((renderRow env fl r).qtyCell = none ↔ fl.excludeQty = true) ∧
      (("Price ea inc GST" ∉ headerTitles fl) ↔ (fl.excludePrice = true ∨ fl.excludeQty = true)) ∧
      (("Total" ∉ headerTitles fl) ↔ (fl.excludePrice = true ∨ fl.excludeQty = true)) ∧
      (("Qty" ∉ headerTitles fl) ↔ fl.excludeQty = true) := by
  obtain ⟨ep, eq⟩ := fl
  cases ep <;> cases eq <;> simp [renderRow, headerTitles]

/-- Claim C10: rows referencing the same image URL get the identical
dedup key (`img_` plus the stable URL hash), and embedding under an
already-present key leaves the resource table unchanged, so the asset's
bytes land in the table exactly once. -/
theorem imageDedup_cacheKey_unique (u1 u2 : String) (t : List (String × ℕ)) (b1 b2 : ℕ)
    (hsame : u1 = u2) :
    imageAlias u1 = imageAlias u2 ∧
      addImageAlias (addImageAlias t (imageAlias u1) b1) (imageAlias u2) b2 =
        addImageAlias t (imageAlias u1) b1 ∧
      (countAlias t (imageAlias u1) = 0 →
        countAlias (addImageAlias (addImageAlias t (imageAlias u1) b1) (imageAlias u2) b2)
          (imageAlias u1) = 1) := by
  subst hsame
  set k := imageAlias u1 with hk
  have idem : addImageAlias (addImageAlias t k b1) k b2 = addImageAlias t k b1 := by
    by_cases hany : t.any (fun p => p.1 == k) = true
    · simp [addImageAlias, hany]
    · simp only [addImageAlias, hany, Bool.false_eq_true, if_false, if_neg hany]
      have : (t ++ [(k, b1)]).any (fun p => p.1 == k) = true := by
        simp [List.any_append]
      simp [this]
  refine ⟨rfl, idem, fun h0 => ?_⟩
  have hnone : t.any (fun p => p.1 == k) = false := by
    rcases hfe : t.filter (fun p => p.1 == k) with _ | ⟨p, ps⟩
    · rw [List.any_eq_false]
      intro p hp hpk
      have : p ∈ t.filter (fun p => p.1 == k) := List.mem_filter.mpr ⟨hp, hpk⟩
      simp [hfe] at this
    · exfalso
      have : countAlias t k ≠ 0 := by simp [countAlias, hfe]
      exact this h0
  rw [idem]
  have hadd : addImageAlias t k b1 = t ++ [(k, b1)] := by
    simp [addImageAlias, hnone]
  rw [hadd]
  simp only [countAlias, List.filter_append, List.length_append]
  rw [show (List.filter (fun p => p.1 == k) [(k, b1)]) = [(k, b1)] from by simp]
  simp only [countAlias] at h0
  simp [h0]

/-- Witness for `imageDedup_cacheKey_unique`: the same catalogue URL
added twice to an empty resource table is present exactly once. -/
theorem imageDedup_cacheKey_unique_witness :
    countAlias
        (addImageAlias
          (addImageAlias [] (imageAlias "https://example.com/img/tap.png") 5)
          (imageAlias "https://example.com/img/tap.png") 6)
        (imageAlias "https://example.com/img/tap.png") = 1 :=
  (imageDedup_cacheKey_unique "https://example.com/img/tap.png" "https://example.com/img/tap.png"
    [] 5 6 rfl).2.2 rfl

/-- Relay exhaustion: when no relay yields a decoded image, the attempt
chain returns nothing. -/
theorem tryLoadOptimizedImage_eq_none (env : ImgEnv) (url : String)
    (hfail : ∀ p img, env.outcome p url ≠ RelayOutcome.loaded img) :
    ∀ ps, tryLoadOptimizedImage env url ps = none := by
  intro ps
  induction ps with
  | nil => rfl
  | cons p rest ih =>
    unfold tryLoadOptimizedImage
    cases hout : env.outcome p url with
    | loaded img => exact absurd hout (hfail p img)
    | failed => exact ih
    | timedOut => exact ih

/-- Claim C9: if every relay attempt for a row's image URL fails to load
or times out, the placement degrades to `skipped` and the row's rendering
continuation still runs — the text columns are drawn exactly as they
would be with an image, with an empty image region; no exception path
exists and the row is never aborted. -/
theorem drawImage_all_relays_fail (env : ImgEnv) (fl : ExportFlags) (r : RowTD)
    (hfail : ∀ p img, env.outcome p r.item.Image_URL ≠ RelayOutcome.loaded img) :
    (renderRow env fl r).image = ImagePlacement.skipped ∧
      (renderRow env fl r).codeCell = r.item.OrderCode ∧
      (renderRow env fl r).descCell = r.item.Description ∧
      (renderRow env fl r).priceCell =
        (if !fl.excludePrice && !fl.excludeQty then some (pdfPriceStr r.item) else none) ∧
      (renderRow env fl r).qtyCell =
        (if !fl.excludeQty then some (toString (quantityOrOne r.item)) else none) ∧
      (renderRow env fl r).totalCell =
        (if !fl.excludePrice && !fl.excludeQty then some (pdfTotalStr r.item) else none) := by
  refine ⟨?_, rfl, rfl, rfl, rfl, rfl⟩
  show drawImage env r.item.Image_URL = ImagePlacement.skipped
  unfold drawImage
  split
  · rfl
  · split
    · rfl
    · rw [tryLoadOptimizedImage_eq_none env r.item.Image_URL hfail]

/-- Witness for `drawImage_all_relays_fail`: the K1 row rendered in an
environment where every relay fails still carries its text cells. -/
theorem drawImage_all_relays_fail_witness :
    (renderRow envAllFail {} (rowOf itemK1)).image = ImagePlacement.skipped ∧
      (renderRow envAllFail {} (rowOf itemK1)).codeCell = (rowOf itemK1).item.OrderCode ∧
      (renderRow envAllFail {} (rowOf itemK1)).descCell = (rowOf itemK1).item.Description ∧
      (renderRow envAllFail {} (rowOf itemK1)).priceCell =
        (if !ExportFlags.excludePrice {} && !ExportFlags.excludeQty {} then
          some (pdfPriceStr (rowOf itemK1).item) else none) ∧
      (renderRow envAllFail {} (rowOf itemK1)).qtyCell =
        (if !ExportFlags.excludeQty {} then some (toString (quantityOrOne (rowOf itemK1).item))
         else none) ∧
      (renderRow envAllFail {} (rowOf itemK1)).totalCell =
        (if !ExportFlags.excludePrice {} && !ExportFlags.excludeQty {} then
          some (pdfTotalStr (rowOf itemK1).item) else none) :=
  drawImage_all_relays_fail envAllFail {} (rowOf itemK1)
    (fun _ _ h => RelayOutcome.noConfusion h)

/-- Claim C4: the unit-price string is comma-stripped and parsed as a
decimal; an unparseable or non-positive result leaves both the price and
the line-total cell empty (never `$0.00`, never `NaN`), and a positive
parse renders the line total as unit price times quantity — in the §8
scenario `$20.00`, empty, and `$15.00`. -/
theorem drawNextRow_price_semantics (it : Item) (q : ℚ) :
    (pdfPriceNum it = none → pdfPriceStr it = "" ∧ pdfTotalStr it = "") ∧
      (pdfPriceNum it = some q → q ≤ 0 → pdfPriceStr it = "" ∧ pdfTotalStr it = "") ∧
      (pdfPriceNum it = some q → 0 < q → 1 ≤ it.Quantity →
        pdfPriceStr it = "$" ++ toFixed2 q ∧
          pdfTotalStr it = "$" ++ toFixed2 (q * (it.Quantity : ℚ))) ∧
      (pdfTotalStr itemK1 = "$20.00" ∧ pdfPriceStr itemK2 = "" ∧ pdfTotalStr itemK2 = "" ∧
        pdfTotalStr itemB1 = "$15.00") := by
  refine ⟨?_, ?_, ?_, ?_, ?_, ?_, ?_⟩
  · intro h
    simp [pdfPriceStr, pdfTotalStr, h]
  · intro h hq
    simp [pdfPriceStr, pdfTotalStr, h, not_lt.mpr hq]
  · intro h hq hqty
    have hq0 : it.Quantity ≠ 0 := by omega
    have hq1 : quantityOrOne it = it.Quantity := by simp [quantityOrOne, hq0]
    constructor
    · simp [pdfPriceStr, h, hq]
    · simp [pdfTotalStr, h, hq, hq1]
  · with_unfolding_all rfl
  · with_unfolding_all rfl
  · with_unfolding_all rfl
  · with_unfolding_all rfl

/-- Witness for `drawNextRow_price_semantics` at the K1 row: the parse
yields 10 and the total cell shows `$20.00` (= `$` + `10 × 2` fixed to
two decimals). -/
theorem drawNextRow_price_semantics_witness :
    pdfPriceNum itemK1 = some 10 ∧ (0 : ℚ) < 10 ∧ 1 ≤ itemK1.Quantity ∧
      (pdfPriceStr itemK1 = "$" ++ toFixed2 10 ∧
        pdfTotalStr itemK1 = "$" ++ toFixed2 ((10 : ℚ) * (itemK1.Quantity : ℚ))) :=
  ⟨by with_unfolding_all rfl, by norm_num, by decide,
    (drawNextRow_price_semantics itemK1 10).2.2.1 (by with_unfolding_all rfl) (by norm_num)
      (by decide)⟩

/-- Claim C1: for a non-empty primary whose reopen succeeds and merge
slots whose resolution raises no warning, the merged page sequence is
exactly the cover page, all tip pages (zero when no tip source is
configured), the remaining primary pages in order, and all tail pages;
and with neither slot configured the merge returns the primary unchanged. -/
theorem mergeWithTipTail_page_order (env : MergeEnv) (s : TipTailSettings) (p0 : ℕ) (rest : Pdf)
    (tipRes tailRes : Option Pdf)
    (hmain : env.mainLoadOk = true)
    (htip : resolveSlot env s.tipUpload s.tipAsset = (tipRes, false))
    (htail : resolveSlot env s.tailUpload s.tailAsset = (tailRes, false)) :
    (mergeWithTipTail env s (p0 :: rest)).1 =
        p0 :: (tipRes.getD [] ++ rest ++ tailRes.getD []) ∧
      (∀ primary : Pdf, noTipTailConfigured s = true →
        mergeWithTipTail env s primary = (primary, [])) := by
  constructor
  · by_cases hcfg : noTipTailConfigured s = true
    · obtain ⟨⟨⟨h1, h2⟩, h3⟩, h4⟩ :
          ((s.tipAsset = none ∧ s.tipUpload = none) ∧ s.tailAsset = none) ∧
            s.tailUpload = none := by
        simpa [noTipTailConfigured, Bool.and_eq_true] using hcfg
      rw [h2, h1] at htip
      rw [h4, h3] at htail
      simp only [resolveSlot] at htip htail
      injection htip with htip1 htip2
      injection htail with htail1 htail2
      rw [← htip1, ← htail1]
      simp [mergeWithTipTail, hcfg]
    · simp only [mergeWithTipTail, hcfg, Bool.false_eq_true, if_false, hmain, Bool.not_true,
        htip, htail]
  · intro primary hcfg
    simp [mergeWithTipTail, hcfg]

/-- Witness for `mergeWithTipTail_page_order`: a three-page primary
merged with a resolvable two-page tip asset yields cover, tip pages,
remaining primary pages. -/
theorem mergeWithTipTail_page_order_witness :
    (mergeWithTipTail
          { fetchAsset := fun a => if a = "tip.pdf" then some 7 else none,
            loadPdf := fun b => if b = 7 then some [10, 11] else none,
            loadUpload := fun _ => none, mainLoadOk := true }
          { tipAsset := some "tip.pdf" } (1 :: [2, 3])).1 =
        1 :: ((some [10, 11] : Option Pdf).getD [] ++ [2, 3] ++
          ((none : Option Pdf)).getD []) :=
  (mergeWithTipTail_page_order
    { fetchAsset := fun a => if a = "tip.pdf" then some 7 else none,
      loadPdf := fun b => if b = 7 then some [10, 11] else none,
      loadUpload := fun _ => none, mainLoadOk := true }
    { tipAsset := some "tip.pdf" } 1 [2, 3] (some [10, 11]) none rfl rfl rfl).1

/-- Claim C8: a merge slot whose source cannot be fetched or parsed is
treated as `none` with its own warning — in particular a failing tip
asset with no tail configured returns the primary's pages unchanged with
exactly the tip warning — and a failure of the merge step itself (the
primary cannot be reopened, or has no page 0 to copy) returns the primary
unmodified, so merging never fails the export. -/
theorem mergeWithTipTail_slot_failure (env : MergeEnv) (s : TipTailSettings) (p0 : ℕ)
    (rest : Pdf) (a : String)
    (htipA : s.tipAsset = some a) (htipU : s.tipUpload = none)
    (htailA : s.tailAsset = none) (htailU : s.tailUpload = none)
    (hfetch : env.fetchAsset a = none) (hmain : env.mainLoadOk = true) :
    mergeWithTipTail env s (p0 :: rest) = (p0 :: rest, [MergeWarning.tipIssue]) ∧
      (∀ upload asset, (resolveSlot env upload asset).2 = true →
        (resolveSlot env upload asset).1 = none) ∧
      (∀ (env2 : MergeEnv) (s2 : TipTailSettings) (primary : Pdf),
        env2.mainLoadOk = false → (mergeWithTipTail env2 s2 primary).1 = primary) ∧
      (∀ (env2 : MergeEnv) (s2 : TipTailSettings),
        (mergeWithTipTail env2 s2 []).1 = []) := by
  refine ⟨?_, ?_, ?_, ?_⟩
  · have hcfg : noTipTailConfigured s = false := by
      simp [noTipTailConfigured, htipA]
    have hres : resolveSlot env s.tipUpload s.tipAsset = (none, true) := by
      rw [htipU, htipA]
      simp [resolveSlot, hfetch]
    have hres2 : resolveSlot env s.tailUpload s.tailAsset = (none, false) := by
      rw [htailU, htailA]
      rfl
    simp [mergeWithTipTail, hcfg, hmain, hres, hres2]
  · intro upload asset h
    rcases upload with _ | u
    · rcases asset with _ | a2
      · simp [resolveSlot] at h
      · rcases hf : env.fetchAsset a2 with _ | buf
        · simp [resolveSlot, hf]
        · rcases hl : env.loadPdf buf with _ | d
          · simp [resolveSlot, hf, hl]
          · simp [resolveSlot, hf, hl] at h
    · rcases hu : env.loadUpload u with _ | d
      · simp [resolveSlot, hu]
      · simp [resolveSlot, hu] at h
  · intro env2 s2 primary hfail
    by_cases hcfg : noTipTailConfigured s2 = true
    · simp [mergeWithTipTail, hcfg]
    · simp [mergeWithTipTail, hcfg, hfail]
  · intro env2 s2
    by_cases hcfg : noTipTailConfigured s2 = true
    · simp [mergeWithTipTail, hcfg]
    · by_cases hm : env2.mainLoadOk = true
      · simp [mergeWithTipTail, hcfg, hm]
      · simp only [Bool.not_eq_true] at hm
        simp [mergeWithTipTail, hcfg, hm]

/-- Witness for `mergeWithTipTail_slot_failure`: the §8 merge scenario —
`tip = "missing-asset"` whose fetch fails, no tail — returns the
primary's pages with the tip warning only. -/
theorem mergeWithTipTail_slot_failure_witness :
    mergeWithTipTail
        { fetchAsset := fun _ => none, loadPdf := fun _ => none,
          loadUpload := fun _ => none, mainLoadOk := true }
        { tipAsset := some "missing-asset" } (1 :: [2, 3]) =
      (1 :: [2, 3], [MergeWarning.tipIssue]) :=
  (mergeWithTipTail_slot_failure
    { fetchAsset := fun _ => none, loadPdf := fun _ => none,
      loadUpload := fun _ => none, mainLoadOk := true }
    { tipAsset := some "missing-asset" } 1 [2, 3] "missing-asset"
    rfl rfl rfl rfl rfl rfl).1

/-! ## Settling claim C2: classification characterization and counterexamples -/

/-- A 25×25 sample (the bound for a 800×25 source) in which all 625
pixels have distinct colors and neighboring pixels differ by at most one
step per channel. -/
def sampleDataA : List RGB := (List.range 625).map (fun i => (i % 25, i / 25, 0))

/-- Counterexample image A: an 800-wide, 25-tall source.  Its 625 sampled
colors are all distinct (so ≥ 500 but < 1000), no neighbor contrast
reaches the edge threshold, and the width is not below 800. -/
def imgA : ImgSample := { width := 800, height := 25, data := sampleDataA, alphas := [] }

/-- A 32×32 sample (the bound for a 32×32 source) in which all 1024
pixels have distinct colors. -/
def sampleDataB : List RGB := (List.range 1024).map (fun i => (i % 32, i / 32, 0))

/-- Counterexample image B: a 32×32 source (below the 800×800 threshold)
whose sample nonetheless has at least 1000 distinct colors. -/
def imgB : ImgSample := { width := 32, height := 32, data := sampleDataB, alphas := [] }

/-- The color maps used by the counterexample samples are injective. -/
theorem colorEncode_injective (m : ℕ) :
    Function.Injective (fun i : ℕ => ((i % m, i / m, 0) : RGB)) := by
  intro i j hij
  obtain ⟨h1, h2, _⟩ : i % m = j % m ∧ i / m = j / m ∧ (0 : ℕ) = 0 := by
    simpa [Prod.ext_iff] using hij
  calc i = m * (i / m) + i % m := (Nat.div_add_mod i m).symm
    _ = m * (j / m) + j % m := by rw [h1, h2]
    _ = j := Nat.div_add_mod j m

/-- Sample A has exactly 625 distinct colors. -/
theorem distinctColors_sampleDataA : distinctColors sampleDataA = 625 := by
  have hnd : sampleDataA.Nodup :=
    (List.nodup_range 625).map (colorEncode_injective 25)
  unfold distinctColors
  rw [List.dedup_eq_self.mpr hnd]
  simp [sampleDataA]

/-- Sample B has exactly 1024 distinct colors. -/
theorem distinctColors_sampleDataB : distinctColors sampleDataB = 1024 := by
  have hnd : sampleDataB.Nodup :=
    (List.nodup_range 1024).map (colorEncode_injective 32)
  unfold distinctColors
  rw [List.dedup_eq_self.mpr hnd]
  simp [sampleDataB]

/-- If all neighboring sample pixels stay within the contrast threshold,
no edge is counted. -/
theorem countEdges_eq_zero :
    ∀ data : List RGB, List.Chain' (fun p q => contrast p q ≤ 50) data →
      countEdges data = 0
  | [] , _ => rfl
  | [_], _ => rfl
  | a :: b :: t, h => by
    rw [List.chain'_cons] at h
    have ih := countEdges_eq_zero (b :: t) h.2
    unfold countEdges at ih ⊢
    rw [List.tail_cons, List.zip_cons_cons]
    rcases hz : (b :: t).zip t with _ | ⟨pq, rest⟩
    · simp
    · rw [List.tail_cons, hz] at ih
      rw [List.dropLast_cons_of_ne_nil (by simp)]
      rw [List.filter_cons_of_neg (by simpa using h.1)]
      exact ih

/-- Neighboring pixels of sample A differ by at most 26 per the contrast
metric, below the threshold of 50. -/
theorem chain_sampleDataA : List.Chain' (fun p q => contrast p q ≤ 50) sampleDataA := by
  unfold sampleDataA
  rw [List.chain'_map]
  rw [show (625 : ℕ) = 624 + 1 from rfl, List.chain'_range_succ]
  intro m hm
  simp only [contrast]
  omega

/-- Sample A counts no edges. -/
theorem countEdges_sampleDataA : countEdges sampleDataA = 0 :=
  countEdges_eq_zero _ chain_sampleDataA

/-- Claim C2's counterexamples.  Image A (800×25, 625 distinct colors,
no edges) satisfies the claimed predicate — fewer than 1000 distinct
colors — but `PDFCore.detectTechnicalImage` classifies it non-technical
(its color threshold is 500, not 1000).  Image B (32×32, 1024 distinct
colors) satisfies the claimed predicate through the dimension clause, but
`isTechnicalDiagram` — the classifier the export's `drawImage` actually
consults — classifies it non-technical, having no dimension clause. -/
theorem technicalClassification_counterexample :
    detectTechnicalImage imgA = false ∧ specClaimedTechnical imgA = true ∧
      isTechnicalDiagram imgB = false ∧ specClaimedTechnical imgB = true := by
  have hA : imgA.data = sampleDataA := rfl
  have hB : imgB.data = sampleDataB := rfl
  refine ⟨?_, ?_, ?_, ?_⟩
  · simp only [detectTechnicalImage, hA, distinctColors_sampleDataA, countEdges_sampleDataA]
    rfl
  · simp only [specClaimedTechnical, hA, distinctColors_sampleDataA]
    rfl
  · simp only [isTechnicalDiagram, hB, distinctColors_sampleDataB]
    rfl
  · simp only [specClaimedTechnical, hB]
    rw [show (decide (imgB.width < 800) && decide (imgB.height < 800)) = true from rfl]
    rw [Bool.or_true]

/-- Claim C2 as amended: `PDFCore.detectTechnicalImage` classifies an
image technical iff the sample has fewer than **500** distinct colors, or
the edge count exceeds 10% of the bounded sample area, or the source is
below 800×800; while the export path's `isTechnicalDiagram` classifies
technical iff the sample has fewer than 1000 distinct colors, with no
edge or dimension clause. -/
theorem technicalClassification_characterization (img : ImgSample) :
    (detectTechnicalImage img = true ↔
        (distinctColors img.data < 500 ∨
          10 * countEdges img.data > sampleSize img * sampleSize img ∨
          (img.width < 800 ∧ img.height < 800))) ∧
      (isTechnicalDiagram img = true ↔ distinctColors img.data < 1000) := by
  constructor
  · simp only [detectTechnicalImage, Bool.or_eq_true, Bool.and_eq_true, decide_eq_true_iff]
    tauto
  · simp [isTechnicalDiagram]

/-! ## Settling claim C6: room grouping order -/

/-- The `byRoom` key-existence test agrees with key-list membership. -/
theorem any_fst_eq_mem (acc : List (String × List Item)) (r : String) :
    (acc.any (fun p => p.1 == r) = true) ↔ r ∈ acc.map Prod.fst := by
  simp [List.any_eq_true, List.mem_map]

/-- Pushing an item preserves the present keys and appends a fresh key. -/
theorem map_fst_pushRoom (acc : List (String × List Item)) (it : Item) :
    (pushRoom acc it).map Prod.fst =
      if it.Room ∈ acc.map Prod.fst then acc.map Prod.fst
      else acc.map Prod.fst ++ [it.Room] := by
  unfold pushRoom
  by_cases hany : acc.any (fun p => p.1 == it.Room) = true
  · rw [if_pos hany, if_pos ((any_fst_eq_mem acc it.Room).mp hany)]
    rw [List.map_map]
    refine List.map_congr_left ?_
    intro p _
    by_cases hp : p.1 = it.Room <;> simp [hp]
  · rw [if_neg hany, if_neg (fun hmem => hany ((any_fst_eq_mem acc it.Room).mpr hmem))]
    simp

/-- Pushing an item appends it to exactly its room's entry. -/
theorem roomEntry_pushRoom (acc : List (String × List Item)) (it : Item) (r : String) :
    roomEntry (pushRoom acc it) r =
      roomEntry acc r ++ (if it.Room == r then [it] else []) := by
  unfold pushRoom
  by_cases hany : acc.any (fun p => p.1 == it.Room) = true
  · rw [if_pos hany]
    unfold roomEntry
    have hgid : ((fun p : String × List Item => p.1 == r) ∘
        (fun p => if p.1 == it.Room then (p.1, p.2 ++ [it]) else p)) =
        (fun p : String × List Item => p.1 == r) := by
      funext p
      by_cases hp : p.1 = it.Room <;> simp [Function.comp, hp]
    rw [List.find?_map, hgid]
    rcases hfind : acc.find? (fun p => p.1 == r) with _ | q <;> rw [hfind]
    · by_cases hir : it.Room = r
      · exfalso
        obtain ⟨p, hp, hpr⟩ := List.any_eq_true.mp hany
        rw [List.find?_eq_none] at hfind
        refine hfind p hp ?_
        rw [beq_iff_eq] at hpr ⊢
        rw [hpr, hir]
      · simp [hir]
    · have hq : q.1 = r := by simpa using List.find?_some hfind
      by_cases hir : it.Room = r
      · simp [hq, hir]
      · have hqr : ¬(q.1 = it.Room) := by
          rw [hq]
          exact fun h => hir h.symm
        simp [hqr, hir]
  · rw [if_neg hany]
    unfold roomEntry
    rw [List.find?_append]
    rcases hfind : acc.find? (fun p => p.1 == r) with _ | q <;> rw [hfind]
    · by_cases hir : it.Room = r
      · simp [List.find?, hir]
      · have hb : (it.Room == r) = false := beq_eq_false_iff_ne.mpr hir
        simp [List.find?, hb, hir]
    · have hq : q.1 = r := by simpa using List.find?_some hfind
      have hir : ¬(it.Room = r) := by
        intro hirr
        refine absurd ?_ hany
        refine List.any_eq_true.mpr ⟨q, List.mem_of_find?_eq_some hfind, ?_⟩
        rw [beq_iff_eq, hq, hirr]
      simp [hir]

/-- Folding the whole selection: the key order of `byRoom` is the rooms'
first-appearance order. -/
theorem map_fst_byRoom_aux (sel : List Item) :
    ∀ acc : List (String × List Item),
      (sel.foldl pushRoom acc).map Prod.fst =
        sel.foldl (fun ks it => if it.Room ∈ ks then ks else ks ++ [it.Room])
          (acc.map Prod.fst) := by
  induction sel with
  | nil => intro acc; rfl
  | cons a l ih =>
    intro acc
    rw [List.foldl_cons, List.foldl_cons, ih (pushRoom acc a), map_fst_pushRoom]

/-- `Object.keys(byRoom)`, before the array-index reordering, is the
first-appearance room order. -/
theorem map_fst_byRoom (sel : List Item) :
    (byRoom sel).map Prod.fst = firstAppearanceRooms sel :=
  map_fst_byRoom_aux sel []

/-- Folding the whole selection: each room's entry collects, in input
order, exactly the items of that room. -/
theorem roomEntry_byRoom_aux (sel : List Item) (r : String) :
    ∀ acc : List (String × List Item),
      roomEntry (sel.foldl pushRoom acc) r =
        roomEntry acc r ++ sel.filter (fun it => it.Room == r) := by
  induction sel with
  | nil => intro acc; simp
  | cons a l ih =>
    intro acc
    rw [List.foldl_cons, ih (pushRoom acc a), roomEntry_pushRoom]
    by_cases hir : (a.Room == r) = true <;>
      simp [List.filter_cons, hir]

/-- Each room's `byRoom` entry is the input-order filter of the
selection. -/
theorem roomEntry_byRoom (sel : List Item) (r : String) :
    roomEntry (byRoom sel) r = sel.filter (fun it => it.Room == r) := by
  have := roomEntry_byRoom_aux sel r []
  simpa [roomEntry] using this

/-- Every room name in first-appearance order belongs to some item. -/
theorem mem_firstAppearanceRooms_aux (sel : List Item) :
    ∀ (ks : List String) (r : String),
      r ∈ sel.foldl (fun ks it => if it.Room ∈ ks then ks else ks ++ [it.Room]) ks →
        r ∈ ks ∨ ∃ it ∈ sel, it.Room = r := by
  induction sel with
  | nil =>
    intro ks r h
    exact Or.inl h
  | cons a l ih =>
    intro ks r h
    rw [List.foldl_cons] at h
    rcases ih _ r h with hk | ⟨it, hit, hr⟩
    · by_cases ha : a.Room ∈ ks
      · rw [if_pos ha] at hk
        exact Or.inl hk
      · rw [if_neg ha] at hk
        rcases List.mem_append.mp hk with hk1 | hk2
        · exact Or.inl hk1
        · exact Or.inr ⟨a, List.mem_cons_self a l, (List.mem_singleton.mp hk2).symm⟩
    · exact Or.inr ⟨it, List.mem_cons_of_mem a hit, hr⟩

/-- When no room name is a JS array-index string, `Object.keys`
enumeration is insertion order. -/
theorem objectKeys_eq_self (l : List String) (h : ∀ s ∈ l, arrayIndexVal s = none) :
    objectKeys l = l := by
  unfold objectKeys
  have h1 : l.filterMap arrayIndexVal = [] := by
    rw [List.filterMap_eq_nil_iff]
    exact h
  have h2 : l.filter (fun s => (arrayIndexVal s).isNone) = l := by
    rw [List.filter_eq_self]
    intro s hs
    rw [h s hs]
    rfl
  rw [h1, h2]
  rfl

/-- Claim C6's counterexample: a selection whose second room is named
`"2"` (a JS array-index key).  `Object.keys` hoists it ahead of
`"Kitchen"`, so the rendered order is not the rooms' first-appearance
order. -/
theorem roomOrder_counterexample :
    rowsToDraw [itemK1, { OrderCode := "X", Room := "2" }] ≠
        specClaimedRowOrder [itemK1, { OrderCode := "X", Room := "2" }] ∧
      (rowsToDraw [itemK1, { OrderCode := "X", Room := "2" }]).map (fun r => r.room) =
        ["2", "Kitchen"] ∧
      (specClaimedRowOrder [itemK1, { OrderCode := "X", Room := "2" }]).map (fun r => r.room) =
        ["Kitchen", "2"] := by
  refine ⟨?_, ?_, ?_⟩ <;> decide

/-- Claim C6 as amended: as long as no room name is a canonical numeric
(JS array-index) string, the rendered row order groups rows by room with
room groups in first-appearance order and rows within a room in input
insertion order; room names that are array-index strings are instead
hoisted first in ascending numeric order. -/
theorem roomOrder_first_appearance (sel : List Item)
    (h : ∀ it ∈ sel, arrayIndexVal it.Room = none) :
    rowsToDraw sel = specClaimedRowOrder sel := by
  unfold rowsToDraw specClaimedRowOrder
  have hkeys : roomNames sel = firstAppearanceRooms sel := by
    unfold roomNames
    rw [map_fst_byRoom]
    refine objectKeys_eq_self _ ?_
    intro s hs
    rcases mem_firstAppearanceRooms_aux sel [] s hs with hk | ⟨it, hit, hr⟩
    · simp at hk
    · rw [← hr]
      exact h it hit
  rw [hkeys]
  simp only [roomEntry_byRoom]

/-- Witness for `roomOrder_first_appearance`: the §8 scenario (rooms
`Kitchen`, `Bath`) renders the Kitchen group (K1 then K2) and then the
Bath group (B1). -/
theorem roomOrder_first_appearance_witness :
    (∀ it ∈ scenarioSelection, arrayIndexVal it.Room = none) ∧
      rowsToDraw scenarioSelection = specClaimedRowOrder scenarioSelection :=
  ⟨by decide, roomOrder_first_appearance scenarioSelection (by decide)⟩

/-! ## Settling claim C7: page capacity and header redraw -/

/-- Dropping the first element of a snoc list: either a later element of
the original list, or the appended one. -/
theorem mem_drop_one_append {α : Type} (A : List α) (x p : α) (hA : A ≠ [])
    (hp : p ∈ (A ++ [x]).drop 1) : p ∈ A.drop 1 ∨ p = x := by
  rcases A with _ | ⟨a, as⟩
  · exact absurd rfl hA
  · rw [List.cons_append, List.drop_one, List.tail_cons] at hp
    rw [List.drop_one, List.tail_cons]
    rcases List.mem_append.mp hp with h1 | h2
    · exact Or.inl h1
    · exact Or.inr (List.mem_singleton.mp h2)

/-- The `drawNextRow` pagination invariant, pushed through the whole row
sequence: the slot counter tracks the current page's row count, no page
exceeds the capacity, every finished page is exactly full, and every page
after the first had its header band redrawn before receiving its first
row and holds at least one row. -/
theorem drawRowStep_foldl_invariant (rows : List RowTD) :
    ∀ st : PageState,
      st.pageRow = st.current.rows.length →
      st.current.rows.length ≤ maxRowsPerPage →
      (∀ p ∈ st.donePages, p.rows.length = maxRowsPerPage) →
      (∀ p ∈ (st.donePages ++ [st.current]).drop 1,
        p.headerRedrawn = true ∧ p.rows ≠ []) →
      ((rows.foldl drawRowStep st).pageRow =
          (rows.foldl drawRowStep st).current.rows.length ∧
        (rows.foldl drawRowStep st).current.rows.length ≤ maxRowsPerPage ∧
        (∀ p ∈ (rows.foldl drawRowStep st).donePages, p.rows.length = maxRowsPerPage) ∧
        (∀ p ∈ ((rows.foldl drawRowStep st).donePages ++
            [(rows.foldl drawRowStep st).current]).drop 1,
          p.headerRedrawn = true ∧ p.rows ≠ [])) := by
  induction rows with
  | nil =>
    intro st h1 h2 h3 h4
    exact ⟨h1, h2, h3, h4⟩
  | cons r rows ih =>
    intro st h1 h2 h3 h4
    rw [List.foldl_cons]
    by_cases hge : st.pageRow ≥ maxRowsPerPage
    · have hstep : drawRowStep st r =
          { donePages := st.donePages ++ [st.current]
            current := { headerRedrawn := true, rows := [r] }
            pageRow := 1 } := by
        unfold drawRowStep
        rw [if_pos hge]
      rw [hstep]
      refine ih _ rfl (by norm_num [maxRowsPerPage]) ?_ ?_
      · intro p hp
        rcases List.mem_append.mp hp with hp1 | hp2
        · exact h3 p hp1
        · rw [List.mem_singleton.mp hp2]
          exact le_antisymm h2 (h1 ▸ hge)
      · intro p hp
        rcases mem_drop_one_append (st.donePages ++ [st.current]) _ p (by simp) hp with hp1 | hp2
        · exact h4 p hp1
        · rw [hp2]
          exact ⟨rfl, by simp⟩
    · have hstep : drawRowStep st r =
          { donePages := st.donePages
            current := { st.current with rows := st.current.rows ++ [r] }
            pageRow := st.pageRow + 1 } := by
        unfold drawRowStep
        rw [if_neg hge]
      rw [hstep]
      refine ih _ (by simp [h1]) (by simp only [List.length_append, List.length_singleton]; omega) h3 ?_
      intro p hp
      rcases hd : st.donePages with _ | ⟨d, ds⟩
      · rw [hd] at hp
        simp at hp
      · rw [hd, List.cons_append, List.drop_one, List.tail_cons] at hp
        rcases List.mem_append.mp hp with hp1 | hp2
        · exact h4 p (by
            rw [hd, List.cons_append, List.drop_one, List.tail_cons]
            exact List.mem_append_left _ hp1)
        · rw [List.mem_singleton.mp hp2]
          have hcur := h4 st.current (by
            rw [hd, List.cons_append, List.drop_one, List.tail_cons]
            exact List.mem_append_right _ (List.mem_singleton_self _))
          exact ⟨hcur.1, by simp⟩

/-- A chain over adjacent elements from the two one-sided facts: every
non-last element satisfies `P` and every non-first element satisfies
`Q`. -/
theorem chain'_of_dropLast_drop {α : Type} {P Q : α → Prop} :
    ∀ l : List α, (∀ a ∈ l.dropLast, P a) → (∀ b ∈ l.drop 1, Q b) →
      List.Chain' (fun a b => P a ∧ Q b) l
  | [], _, _ => List.chain'_nil
  | [_], _, _ => List.chain'_singleton _
  | a :: b :: t, hP, hQ => by
    rw [List.chain'_cons]
    have hdl : (a :: b :: t).dropLast = a :: (b :: t).dropLast := rfl
    refine ⟨⟨hP a (by rw [hdl]; exact List.mem_cons_self _ _), hQ b (by simp)⟩, ?_⟩
    refine chain'_of_dropLast_drop (b :: t) ?_ ?_
    · intro x hx
      refine hP x ?_
      rw [hdl]
      exact List.mem_cons_of_mem a hx
    · intro x hx
      rw [List.drop_one, List.tail_cons] at hx
      refine hQ x ?_
      rw [List.drop_one, List.tail_cons]
      exact List.mem_cons_of_mem b hx

/-- Claim C7: no content page receives more than the configured 4 row
slots, and at every page transition the finished page was exactly full
while the new page had its header band redrawn before its (at least one)
rows were placed. -/
theorem paginate_capacity_invariant (rows : List RowTD) :
    (∀ p ∈ paginate rows, p.rows.length ≤ maxRowsPerPage) ∧
      List.Chain'
        (fun p q => p.rows.length = maxRowsPerPage ∧ q.headerRedrawn = true ∧ q.rows ≠ [])
        (paginate rows) := by
  obtain ⟨h1, h2, h3, h4⟩ :=
    drawRowStep_foldl_invariant rows initialPageState rfl
      (by norm_num [initialPageState, maxRowsPerPage])
      (fun p hp => by simp [initialPageState] at hp)
      (fun p hp => by simp [initialPageState] at hp)
  constructor
  · intro p hp
    unfold paginate at hp
    rcases List.mem_append.mp hp with hp1 | hp2
    · exact (h3 p hp1).le
    · rw [List.mem_singleton.mp hp2]
      exact h2
  · unfold paginate
    refine chain'_of_dropLast_drop _ ?_ ?_
    · intro a ha
      rw [List.dropLast_concat] at ha
      exact h3 a ha
    · intro b hb
      exact h4 b hb

/-- Witness for `paginate_capacity_invariant`: six rows paginate into a
full first page (4 slots, within capacity) followed by a header-redrawn
page of 2. -/
theorem paginate_capacity_invariant_witness :
    ({ headerRedrawn := false,
        rows := [rowOf itemK1, rowOf itemK1, rowOf itemK1, rowOf itemK1] } :
          ContentPage).rows.length ≤ maxRowsPerPage :=
  (paginate_capacity_invariant (List.replicate 6 (rowOf itemK1))).1 _ (by decide)


end ProductPresenter
